import Mathlib

/-!
Shallow embedding of the soroban Go client library: the contract lifecycle
orchestrator (install / deploy / invoke / restore / liveness) and the
simulate-then-send transaction pipeline.

Modelling conventions:
* Go byte slices and fixed-size byte arrays are `List Nat` (`Bytes`); the Go
  zero value of a `[32]byte` field is 32 zero bytes, so the source's
  `len(x) == 0` tests on such fields stay exactly as written (and stay dead).
* A Go `(T, error)` return is `Res T`; a Go runtime panic (nil-pointer
  dereference, index out of range) is `Res.crash`.
* External collaborators - crypto/sha256, the stellar xdr codec, the stellar
  txnbuild library, the JSON-RPC transport - are outside the library. They
  are modelled as oracle fields of `Codec` and `Client`, or as thin wrappers
  (`NewTransaction`, `Sign`) that keep only the behaviour the library
  observes.
* Network interaction is explicit: every function that performs RPC calls
  also returns the ordered list of `NetCall`s it issued.
-/

namespace Soroban

abbrev Bytes := List Nat

/-- Outcome of a Go call: normal value, returned error, or runtime panic. -/
inductive Res (α : Type) where
  | ok : α → Res α
  | err : String → Res α
  | crash : String → Res α
deriving Repr, DecidableEq

/-- xdr.AccountId, kept as the parsed key material. -/
structure AccountId where
  raw : String
deriving Repr, DecidableEq

/-- xdr.ScAddress: either an account address or a 32-byte contract id. -/
inductive ScAddress where
  | account : AccountId → ScAddress
  | contract : Bytes → ScAddress
deriving Repr, DecidableEq

structure ContractIdPreimageFromAddress where
  Address : ScAddress
  Salt : Bytes
deriving Repr, DecidableEq

/-- xdr.ContractIdPreimage with Type = ContractIdPreimageFromAddress. -/
inductive ContractIdPreimage where
  | fromAddress : ContractIdPreimageFromAddress → ContractIdPreimage
deriving Repr, DecidableEq

structure HashIdPreimageContractId where
  NetworkId : Bytes
  ContractIdPreimage : ContractIdPreimage
deriving Repr, DecidableEq

inductive EnvelopeType where
  | contractId
deriving Repr, DecidableEq

/-- xdr.HashIdPreimage (the Go field named Type is `Type_` here, since
`Type` is reserved in Lean). -/
structure HashIdPreimage where
  Type_ : EnvelopeType
  ContractId : HashIdPreimageContractId
deriving Repr, DecidableEq

/-- xdr.ScVal, reduced to the cases this library constructs or decodes. -/
inductive ScVal where
  | ledgerKeyContractInstance
  | decoded (tag : String)
deriving Repr, DecidableEq

inductive ContractDataDurability where
  | persistent
deriving Repr, DecidableEq

/-- xdr.LedgerKey for the key shapes this library builds; `zeroValue` is the
Go zero value `xdr.LedgerKey{}` returned on some error paths. -/
inductive LedgerKey where
  | contractCode (Hash : Bytes)
  | contractData (Contract : ScAddress) (Key : ScVal)
      (Durability : ContractDataDurability)
  | zeroValue
deriving Repr, DecidableEq

/-- xdr.SorobanAuthorizationEntry, payload kept abstract. -/
structure SorobanAuthorizationEntry where
  rest : String
deriving Repr, DecidableEq

structure LedgerFootprint where
  ReadOnly : List LedgerKey := []
  ReadWrite : List LedgerKey := []
deriving Repr, DecidableEq

structure SorobanResources where
  Footprint : LedgerFootprint
deriving Repr, DecidableEq

/-- xdr.SorobanTransactionData; `rest` stands for the fields this library
never inspects. -/
structure SorobanTransactionData where
  Resources : SorobanResources
  rest : String := ""
deriving Repr, DecidableEq

structure InvokeContractArgs where
  ContractAddress : ScAddress
  FunctionName : String
  Args : List ScVal
deriving Repr, DecidableEq

structure CreateContractArgs where
  ContractIdPreimage : ContractIdPreimage
  WasmHash : Bytes
deriving Repr, DecidableEq

/-- xdr.HostFunction for the three host-function types the library builds. -/
inductive HostFunction where
  | uploadContractWasm (Wasm : Bytes)
  | createContract (CreateContract : CreateContractArgs)
  | invokeContract (InvokeContract : InvokeContractArgs)
deriving Repr, DecidableEq

/-- txnbuild.Operation, as a tagged variant.  `invokeHostFunction` carries its
Auth list and (as `ext`) an optional attached SorobanTransactionData, mirroring
txnbuild.InvokeHostFunction.Auth and .Ext; `restoreFootprint` likewise carries
its Ext.  `otherOp` stands for any operation of another kind. -/
inductive Operation where
  | invokeHostFunction (HostFunction : HostFunction)
      (Auth : List SorobanAuthorizationEntry)
      (ext : Option SorobanTransactionData) (SourceAccount : String)
  | restoreFootprint (ext : Option SorobanTransactionData)
      (SourceAccount : String)
  | otherOp (tag : String)
deriving Repr, DecidableEq

/-- txnbuild.Account (interface), reduced to what the library reads. -/
structure Account where
  AccountId : String
  Sequence : Int := 0
deriving Repr, DecidableEq

/-- keypair.Full, kept abstract. -/
structure KeyPair where
  seed : String
deriving Repr, DecidableEq

structure TimeBounds where
  MinTime : Int := 0
  MaxTime : Int := 0
deriving Repr, DecidableEq

/-- Thin model of txnbuild.NewTimeout (the real one uses the wall clock,
which is outside this embedding). -/
def NewTimeout (seconds : Int) : TimeBounds :=
  { MinTime := 0, MaxTime := seconds }

structure LedgerBounds where
  MinLedger : Nat := 0
  MaxLedger : Nat := 0
deriving Repr, DecidableEq

structure Preconditions where
  TimeBounds : TimeBounds
  LedgerBounds : Option LedgerBounds := none
  MinSequenceNumber : Option Int := none
  MinSequenceNumberAge : Nat := 0
  MinSequenceNumberLedgerGap : Nat := 0
  ExtraSigners : List String := []
deriving Repr, DecidableEq

structure TransactionParams where
  SourceAccount : Option Account
  Operations : List Operation
  Preconditions : Preconditions
  BaseFee : Int
  IncrementSequenceNum : Bool
deriving Repr, DecidableEq

/-- A built (unsigned) txnbuild.Transaction. -/
structure BuiltTx where
  SourceAccount : Account
  Operations : List Operation
  Preconditions : Preconditions
  BaseFee : Int
  IncrementSequenceNum : Bool
deriving Repr, DecidableEq

/-- txnbuild.MinBaseFee. -/
def MinBaseFee : Int := 100

/-- Thin model of the external txnbuild.NewTransaction: packages the params
after the library's basic validation (a nil source account and an empty
operation list are rejected; further validations are not relied on here). -/
def NewTransaction (params : TransactionParams) : Except String BuiltTx :=
  match params.SourceAccount with
  | none => .error "transaction has no source account"
  | some src =>
    if params.Operations.isEmpty then .error "transaction has no operations"
    else .ok { SourceAccount := src,
               Operations := params.Operations,
               Preconditions := params.Preconditions,
               BaseFee := params.BaseFee,
               IncrementSequenceNum := params.IncrementSequenceNum }

/-- A signed transaction as handed to sendTransaction. -/
structure SignedTx where
  tx : BuiltTx
  networkPassphrase : String
  signers : List (Option KeyPair)
deriving Repr, DecidableEq

/-- Thin model of txnbuild's Transaction.Sign (signature bytes themselves are
outside this embedding). -/
def Sign (tx : BuiltTx) (passphrase : String) (signers : List (Option KeyPair)) :
    Except String SignedTx :=
  .ok { tx := tx, networkPassphrase := passphrase, signers := signers }

/-- One outbound RPC interaction. -/
inductive NetCall where
  | simulateCall (tx : BuiltTx)
  | sendCall (stx : SignedTx)
  | getLedgerEntriesCall (key : String)
  | getTransactionCall (attempt : Nat)
deriving Repr, DecidableEq

def NetCall.isSend : NetCall → Bool
  | .sendCall _ => true
  | _ => false

/-- Result structures of the RPC layer (client.go), fields the core reads. -/
structure SendTransactionResult where
  Hash : String
  Status : String := ""
  ErrorResultXdr : String := ""
deriving Repr, DecidableEq

structure SimulateResultEntry where
  Auth : List String
  XDR : String
deriving Repr, DecidableEq

structure RestorePreamble where
  MinResourceFee : Int
  TransactionData : String
deriving Repr, DecidableEq

structure SimulateTransactionResult where
  Error : String := ""
  TransactionData : String
  MinResourceFee : Int
  LatestLedger : Int := 0
  Results : List SimulateResultEntry
  RestorePreamble : RestorePreamble
deriving Repr, DecidableEq

structure GetTransactionResult where
  Status : String
  Ledger : Int := 0
  ResultXdr : String := ""
  ResultMetaXdr : String := ""
deriving Repr, DecidableEq

structure GetLedgerEntrie where
  Key : String := ""
  Xdr : String := ""
  LastModifiedLedgerSeq : Int := 0
  LiveUntilLedgerSeq : Int
deriving Repr, DecidableEq

structure GetLedgerEntriesResult where
  LatestLedger : Int
  Entries : List GetLedgerEntrie
deriving Repr, DecidableEq

/-- The external crypto / xdr codec capabilities the library calls into. -/
structure Codec where
  hashStr : String → Bytes
  hashBytes : Bytes → Bytes
  marshalHashIdPreimage : HashIdPreimage → Except String Bytes
  marshalLedgerKeyBase64 : LedgerKey → Except String String
  addressToAccountId : String → Except String AccountId
  decodeScVal : String → Except String ScVal
  decodeAuthEntry : String → Except String SorobanAuthorizationEntry
  decodeSorobanData : String → Except String SorobanTransactionData

/-- soroban.Client: the passphrase plus the RPC methods, the latter as
response oracles (getTransaction additionally indexed by how many polls of
that hash have happened, since the network's answer changes over time). -/
structure Client where
  PassPhrase : String
  FriendbotURL : String := ""
  GetLedgerEntries : String → Except String GetLedgerEntriesResult :=
    fun _ => .error "no response"
  SimulateTransaction : BuiltTx → Except String SimulateTransactionResult :=
    fun _ => .error "no response"
  SendTransaction : SignedTx → Except String SendTransactionResult :=
    fun _ => .error "no response"
  GetTransaction : String → Nat → Except String GetTransactionResult :=
    fun _ _ => .error "no response"

/-- soroban.Contract. -/
structure Contract where
  wasm : Bytes := []
  wasmHash : Bytes := List.replicate 32 0
  salt : Bytes := List.replicate 32 0
  client : Option Client := none
  source : Option Account := none
  kp : Option KeyPair := none
  address : Option ScAddress := none

def ErrorRequiredSource : String := "Source Address is required"
def ErrorRequiredWasm : String := "Wasm is required"
def ErrorRequiredWasmHash : String := "WasmHash is required"
def ErrorRequiredClient : String := "Client is required"
def ErrorRequiredKeyPair : String := "Key pair is required"
def ErrorRequiredSalt : String := "Salt is required"
def ErrorWasmCodeNeedsRestore : String := "Wasm code has no ttl, requires a restore"
def ErrorContractNeedsRestore : String := "Contract has no ttl, requires a restore"
def ErrorContractDataNeedsRestore : String := "Contract data has no ttl, requires a restore"
def ErrorInvokeRequiresFunction : String := "Function is required"

def NewContract : Contract := {}

def Contract.Wasm (env : Codec) (c : Contract) (wasm : Bytes) : Contract :=
  { c with wasm := wasm, wasmHash := env.hashBytes wasm }

def Contract.WasmHash (c : Contract) (wasmHash : Bytes) : Contract :=
  { c with wasmHash := wasmHash }

def Contract.Salt (env : Codec) (c : Contract) (salt : String) : Contract :=
  { c with salt := env.hashStr salt }

def Contract.Client (c : Contract) (client : Option Client) : Contract :=
  { c with client := client }

def Contract.SourceAccount (c : Contract) (source : Option Account) : Contract :=
  { c with source := source }

def Contract.KeyPair (c : Contract) (kp : Option KeyPair) : Contract :=
  { c with kp := kp }

def Contract.Address (c : Contract) (address : ScAddress) : Contract :=
  { c with address := some address }

/-- contract.go getContractIdPreimage: calling GetAccountID on a nil source
interface is a Go panic. -/
def Contract.getContractIdPreimage (env : Codec) (c : Contract) :
    Res ContractIdPreimage :=
  match c.source with
  | none => .crash "nil pointer dereference"
  | some src =>
    match env.addressToAccountId src.AccountId with
    | .error e => .err e
    | .ok sourceAccountID =>
      .ok (.fromAddress { Address := .account sourceAccountID, Salt := c.salt })

/-- contract.go GetAddress.  Mutation of the cached `address` field is made
explicit: the updated Contract is returned alongside the address. -/
def Contract.GetAddress (env : Codec) (c : Contract) :
    Res (ScAddress × Contract) :=
  match c.address with
  | some a => .ok (a, c)
  | none =>
    match c.source with
    | none => .err ErrorRequiredSource
    | some _ =>
      match c.client with
      | none => .err ErrorRequiredClient
      | some client =>
        if c.salt.length == 0 then .err ErrorRequiredSalt
        else
          match c.getContractIdPreimage env with
          | .err e => .err e
          | .crash m => .crash m
          | .ok contractIdPreimage =>
            let contractId : HashIdPreimageContractId :=
              { NetworkId := env.hashStr client.PassPhrase,
                ContractIdPreimage := contractIdPreimage }
            let preImage : HashIdPreimage :=
              { Type_ := .contractId, ContractId := contractId }
            match env.marshalHashIdPreimage preImage with
            | .error e => .err e
            | .ok xdrPreImageBytes =>
              let contractHash := env.hashBytes xdrPreImageBytes
              let a : ScAddress := .contract contractHash
              .ok (a, { c with address := some a })

/-- Written from the spec's words (section 4.1), for comparison with
`Contract.GetAddress`: build the from-address preimage, hash the passphrase
into a network id, combine into the canonical pre-image record, encode it,
hash the encoding, wrap as a contract address. -/
def deriveAddressSpec (env : Codec) (sourceAccountId : String) (salt : Bytes)
    (networkPassphrase : String) : Except String ScAddress :=
  match env.addressToAccountId sourceAccountId with
  | .error e => .error e
  | .ok acc =>
    let contractIdPreimage : ContractIdPreimage :=
      .fromAddress { Address := .account acc, Salt := salt }
    let networkId := env.hashStr networkPassphrase
    let record : HashIdPreimage :=
      { Type_ := .contractId,
        ContractId := { NetworkId := networkId,
                        ContractIdPreimage := contractIdPreimage } }
    match env.marshalHashIdPreimage record with
    | .error e => .error e
    | .ok encoded => .ok (.contract (env.hashBytes encoded))

/-- contract.go GetCodeKey (the length test on a Go [32]byte field is kept
as written; it can only fire on a hand-built Contract value). -/
def Contract.GetCodeKey (c : Contract) : Except String LedgerKey :=
  if c.wasmHash.length == 0 then .error ErrorRequiredWasmHash
  else .ok (.contractCode c.wasmHash)

/-- contract.go GetFootprint.  Note the source returns the zero LedgerKey
with a nil error when GetAddress fails. -/
def Contract.GetFootprint (env : Codec) (c : Contract) :
    Res (LedgerKey × Contract) :=
  if c.wasmHash.length == 0 then .err ErrorRequiredWasmHash
  else
    match c.GetAddress env with
    | .err _ => .ok (.zeroValue, c)
    | .crash m => .crash m
    | .ok (contractAddress, c) =>
      .ok (.contractData contractAddress .ledgerKeyContractInstance .persistent, c)

/-- contract.go IsCodeAlive.  The source indexes res.Entries[0] without a
length test, so a response with zero entries is a runtime panic. -/
def Contract.IsCodeAlive (env : Codec) (c : Contract) :
    Res (Bool × GetLedgerEntriesResult) × List NetCall :=
  match c.client with
  | none => (.err ErrorRequiredClient, [])
  | some client =>
    match c.GetCodeKey with
    | .error e => (.err e, [])
    | .ok ledgerKey =>
      match env.marshalLedgerKeyBase64 ledgerKey with
      | .error e => (.err e, [])
      | .ok base64 =>
        match client.GetLedgerEntries base64 with
        | .error e => (.err e, [.getLedgerEntriesCall base64])
        | .ok res =>
          match res.Entries with
          | [] => (.crash "index out of range", [.getLedgerEntriesCall base64])
          | entry :: _ =>
            (.ok (entry.LiveUntilLedgerSeq >= res.LatestLedger, res),
             [.getLedgerEntriesCall base64])

/-- contract.go IsInstanceAlive (no client-nil test in the source: a nil
client is a panic; a response with zero entries returns false, nil). -/
def Contract.IsInstanceAlive (env : Codec) (c : Contract) :
    Res ((Bool × Option GetLedgerEntriesResult) × Contract) × List NetCall :=
  match c.GetFootprint env with
  | .err e => (.err e, [])
  | .crash m => (.crash m, [])
  | .ok (ledgerKey, c) =>
    match env.marshalLedgerKeyBase64 ledgerKey with
    | .error e => (.err e, [])
    | .ok base64 =>
      match c.client with
      | none => (.crash "nil pointer dereference", [])
      | some client =>
        match client.GetLedgerEntries base64 with
        | .error e => (.err e, [.getLedgerEntriesCall base64])
        | .ok res =>
          match res.Entries with
          | [] => (.ok ((false, some res), c), [.getLedgerEntriesCall base64])
          | entry :: _ =>
            (.ok ((entry.LiveUntilLedgerSeq >= res.LatestLedger, some res), c),
             [.getLedgerEntriesCall base64])

/-- contract.go IsAlive: conjunction of the two liveness checks, code first,
errors short-circuit. -/
def Contract.IsAlive (env : Codec) (c : Contract) :
    Res (Bool × Contract) × List NetCall :=
  match c.IsCodeAlive env with
  | (.err e, tr) => (.err e, tr)
  | (.crash m, tr) => (.crash m, tr)
  | (.ok (code, _), tr) =>
    match c.IsInstanceAlive env with
    | (.err e, tr2) => (.err e, tr ++ tr2)
    | (.crash m, tr2) => (.crash m, tr ++ tr2)
    | (.ok ((instance_, _), c), tr2) => (.ok (code && instance_, c), tr ++ tr2)

/-- transaction.go builder state. -/
structure transactionBuild where
  source : Option Account := none
  operations : List Operation := []
  signers : List (Option KeyPair) := []
  timeBounds : TimeBounds := {}
  ledgerBounds : Option LedgerBounds := none
  minSequenceNumber : Option Int := none
  minSequenceNumberAge : Nat := 0
  minSequenceNumberLedgerGap : Nat := 0
  extraSigners : List String := []
  Memo : Option String := none
  baseFee : Int := 0
  incrementSequenceNum : Bool := false
deriving Repr, DecidableEq

structure Transaction where
  client : Option Client := none
  build : transactionBuild := {}

def NewTransctionBuilder : Transaction :=
  { build := { baseFee := MinBaseFee, incrementSequenceNum := true } }

def Transaction.Client (t : Transaction) (c : Option Client) : Transaction :=
  { t with client := c }

def Transaction.SourceAccount (t : Transaction) (s : Option Account) : Transaction :=
  { t with build := { t.build with source := s } }

def Transaction.Operation (t : Transaction) (op : Operation) : Transaction :=
  { t with build := { t.build with operations := t.build.operations ++ [op] } }

def Transaction.Signer (t : Transaction) (k : Option KeyPair) : Transaction :=
  { t with build := { t.build with signers := t.build.signers ++ [k] } }

def Transaction.TimeBounds (t : Transaction) (tb : TimeBounds) : Transaction :=
  { t with build := { t.build with timeBounds := tb } }

def Transaction.BaseFee (t : Transaction) (f : Int) : Transaction :=
  { t with build := { t.build with baseFee := f } }

/-- transaction.go Authorization: a type assertion on operations[0]; on an
empty operation list the indexing itself is a Go panic. -/
def Transaction.Authorization (t : Transaction)
    (auth : List SorobanAuthorizationEntry) : Res Transaction :=
  match t.build.operations with
  | [] => .crash "index out of range"
  | op :: rest =>
    match op with
    | .invokeHostFunction hf _ ext src =>
      .ok { t with build := { t.build with
              operations := .invokeHostFunction hf auth ext src :: rest } }
    | _ => .ok t

/-- transaction.go SorobanData: guarded by a length test, then a type switch
on the leading operation; other kinds are left untouched. -/
def Transaction.SorobanData (t : Transaction)
    (data : SorobanTransactionData) : Transaction :=
  match t.build.operations with
  | [] => t
  | op :: rest =>
    match op with
    | .invokeHostFunction hf auth _ src =>
      { t with build := { t.build with
          operations := .invokeHostFunction hf auth (some data) src :: rest } }
    | .restoreFootprint _ src =>
      { t with build := { t.build with
          operations := .restoreFootprint (some data) src :: rest } }
    | .otherOp _ => t

/-- transaction.go buildTx. -/
def Transaction.buildTx (t : Transaction) : Except String BuiltTx :=
  NewTransaction
    { SourceAccount := t.build.source,
      Operations := t.build.operations,
      Preconditions :=
        { TimeBounds := t.build.timeBounds,
          LedgerBounds := t.build.ledgerBounds,
          MinSequenceNumber := t.build.minSequenceNumber,
          MinSequenceNumberAge := t.build.minSequenceNumberAge,
          MinSequenceNumberLedgerGap := t.build.minSequenceNumberLedgerGap,
          ExtraSigners := t.build.extraSigners },
      BaseFee := t.build.baseFee,
      IncrementSequenceNum := t.build.incrementSequenceNum }

/-- The transaction Simulate finalizes: the source saves the
incrementSequenceNum flag, clears it, builds, and restores the flag; so the
dry-run build is exactly buildTx with the flag forced off. -/
def Transaction.dryTx (t : Transaction) : Except String BuiltTx :=
  Transaction.buildTx
    { t with build := { t.build with incrementSequenceNum := false } }

/-- The auth-decoding loop inside transaction.go Simulate: per operation
result, decode the xdr result (checked, discarded), then decode and collect
each auth entry, in order. -/
def decodeAuths (env : Codec) : List SimulateResultEntry →
    Except String (List SorobanAuthorizationEntry)
  | [] => .ok []
  | entry :: rest => do
    let _ ← env.decodeScVal entry.XDR
    let here ← entry.Auth.mapM env.decodeAuthEntry
    let more ← decodeAuths env rest
    pure (here ++ more)

/-- transaction.go Simulate: dry-run build (sequence increment disabled, flag
restored), submit the simulation, decode per-operation results and auth
entries, decode the transaction data, then fold base fee, soroban data and
authorization back into the builder. -/
def Transaction.Simulate (env : Codec) (t : Transaction) :
    (Res SimulateTransactionResult × Transaction) × List NetCall :=
  match t.dryTx with
  | .error e => ((.err e, t), [])
  | .ok tx =>
    match t.client with
    | none => ((.crash "nil pointer dereference", t), [])
    | some client =>
      match client.SimulateTransaction tx with
      | .error e => ((.err e, t), [.simulateCall tx])
      | .ok res =>
        match decodeAuths env res.Results with
        | .error e => ((.err e, t), [.simulateCall tx])
        | .ok auth =>
          match env.decodeSorobanData res.TransactionData with
          | .error e => ((.err e, t), [.simulateCall tx])
          | .ok transactionData =>
            match ((t.BaseFee (res.MinResourceFee + MinBaseFee)).SorobanData
                     transactionData).Authorization auth with
            | .err e => ((.err e, t), [.simulateCall tx])
            | .crash m => ((.crash m, t), [.simulateCall tx])
            | .ok t2 => ((.ok res, t2), [.simulateCall tx])

/-- transaction.go Send: build, sign with the client passphrase and the
configured signers, submit. -/
def Transaction.Send (t : Transaction) :
    Res SendTransactionResult × List NetCall :=
  match t.buildTx with
  | .error e => (.err e, [])
  | .ok tx =>
    match t.client with
    | none => (.crash "nil pointer dereference", [])
    | some client =>
      match Sign tx client.PassPhrase t.build.signers with
      | .error e => (.err e, [])
      | .ok stx =>
        match client.SendTransaction stx with
        | .error e => (.err e, [.sendCall stx])
        | .ok r => (.ok r, [.sendCall stx])

/-- contract.go waitCompletedTransaction's loop, with the loop index and the
remaining attempt budget explicit.  Returns the call outcome, the RPC calls
made, and the slept durations (the source sleeps i*2 seconds after a
NOT_FOUND attempt i). -/
def Client.waitLoop (c : Client) (hash : String) :
    Nat → Nat → Res (Option GetTransactionResult) × List NetCall × List Nat
  | _, 0 => (.ok none, [], [])
  | i, fuel + 1 =>
    match c.GetTransaction hash i with
    | .error e => (.err e, [.getTransactionCall i], [])
    | .ok res =>
      if res.Status != "NOT_FOUND" then
        (.ok (some res), [.getTransactionCall i], [])
      else
        match c.waitLoop hash (i + 1) fuel with
        | (r, tr, sleeps) => (r, .getTransactionCall i :: tr, i * 2 :: sleeps)

/-- contract.go waitCompletedTransaction: five attempts, starting at 0. -/
def Client.waitCompletedTransaction (c : Client) (hash : String) :
    Res (Option GetTransactionResult) × List NetCall × List Nat :=
  c.waitLoop hash 0 5

/-- contract.go invokeBuild. -/
structure invokeBuild where
  function : String := ""
  prams : List ScVal := []
deriving Repr, DecidableEq

structure invokeBuilder where
  contract : Contract
  build : invokeBuild

def Contract.Invoke (c : Contract) : invokeBuilder :=
  { contract := c, build := { prams := [] } }

def invokeBuilder.Function (b : invokeBuilder) (function : String) : invokeBuilder :=
  { b with build := { b.build with function := function } }

def invokeBuilder.Params (b : invokeBuilder) (params : List ScVal) : invokeBuilder :=
  { b with build := { b.build with prams := b.build.prams ++ params } }

/-- The invoke-host-function transaction assembled inside contract.go invoke
(extracted as a definition so theorems can name it). -/
def Contract.invokeTx (c : Contract) (build : invokeBuild)
    (contractAddress : ScAddress) (srcId : String) : Transaction :=
  let invokeHostFunctionOp : Operation :=
    .invokeHostFunction
      (.invokeContract { ContractAddress := contractAddress,
                         FunctionName := build.function,
                         Args := build.prams })
      [] none srcId
  ((((NewTransctionBuilder.Client c.client).SourceAccount c.source).Signer
      c.kp).Operation invokeHostFunctionOp).TimeBounds (NewTimeout 30)

/-- The restore-footprint transaction assembled inside contract.go invoke
when the simulation carries a restore preamble (extracted as a definition so
theorems can name it). -/
def Contract.restorePreambleTx (c : Contract) (srcId : String)
    (transactionData : SorobanTransactionData) (fee : Int) : Transaction :=
  ((((((NewTransctionBuilder.Client c.client).SourceAccount c.source).Signer
      c.kp).Operation (.restoreFootprint none srcId)).TimeBounds
      (NewTimeout 30)).SorobanData transactionData).BaseFee fee

/-- contract.go invoke: derive/fetch the address, assemble the invoke
transaction, simulate; on a non-zero restore-preamble fee either fail
(restore = false) or decode res.TransactionData, send a restore-footprint
transaction with it, poll it (result discarded), and finally send the
prepared invoke transaction. -/
def Contract.invoke (env : Codec) (c : Contract) (build : invokeBuild)
    (restore : Bool) : (Res SendTransactionResult × Contract) × List NetCall :=
  match c.GetAddress env with
  | .err e => ((.err e, c), [])
  | .crash m => ((.crash m, c), [])
  | .ok (contractAddress, c) =>
    match c.source with
    | none => ((.crash "nil pointer dereference", c), [])
    | some src =>
      let transaction := c.invokeTx build contractAddress src.AccountId
      match transaction.Simulate env with
      | ((.err e, _), tr) => ((.err e, c), tr)
      | ((.crash m, _), tr) => ((.crash m, c), tr)
      | ((.ok res, transaction), tr) =>
        if res.RestorePreamble.MinResourceFee ≠ 0 then
          if !restore then ((.err ErrorContractDataNeedsRestore, c), tr)
          else
            match env.decodeSorobanData res.TransactionData with
            | .error e => ((.err e, c), tr)
            | .ok transactionData =>
              let t := c.restorePreambleTx src.AccountId transactionData
                         (res.RestorePreamble.MinResourceFee + MinBaseFee)
              match t.Send with
              | (.err e, tr2) => ((.err e, c), tr ++ tr2)
              | (.crash m, tr2) => ((.crash m, c), tr ++ tr2)
              | (.ok resR, tr2) =>
                match c.client with
                | none => ((.crash "nil pointer dereference", c), tr ++ tr2)
                | some client =>
                  match client.waitCompletedTransaction resR.Hash with
                  | (_, tr3, _) =>
                    match transaction.Send with
                    | (r, tr4) => ((r, c), tr ++ tr2 ++ tr3 ++ tr4)
        else
          match transaction.Send with
          | (r, tr4) => ((r, c), tr ++ tr4)

/-- contract.go simulateSubmitHostFunction. -/
def Contract.simulateSubmitHostFunction (env : Codec) (c : Contract)
    (op : Operation) : Res SendTransactionResult × List NetCall :=
  let transaction :=
    ((((NewTransctionBuilder.Client c.client).SourceAccount c.source).Signer
        c.kp).Operation op).TimeBounds (NewTimeout 30)
  match transaction.Simulate env with
  | ((.err e, _), tr) => (.err e, tr)
  | ((.crash m, _), tr) => (.crash m, tr)
  | ((.ok _, transaction), tr) =>
    match transaction.Send with
    | (r, tr2) => (r, tr ++ tr2)

/-- contract.go Install: the only validated fields are client, source and
key pair (the source defines ErrorRequiredWasm but never checks the wasm
bytes); then upload-code, simulate and send. -/
def Contract.Install (env : Codec) (c : Contract) :
    Res SendTransactionResult × List NetCall :=
  match c.client with
  | none => (.err ErrorRequiredClient, [])
  | some _ =>
    match c.source with
    | none => (.err ErrorRequiredSource, [])
    | some src =>
      match c.kp with
      | none => (.err ErrorRequiredKeyPair, [])
      | some _ =>
        let installOp : Operation :=
          .invokeHostFunction (.uploadContractWasm c.wasm) [] none src.AccountId
        c.simulateSubmitHostFunction env installOp

/-- contract.go Deploy. -/
def Contract.Deploy (env : Codec) (c : Contract) :
    Res SendTransactionResult × List NetCall :=
  match c.client with
  | none => (.err ErrorRequiredClient, [])
  | some _ =>
    match c.source with
    | none => (.err ErrorRequiredSource, [])
    | some src =>
      match c.kp with
      | none => (.err ErrorRequiredKeyPair, [])
      | some _ =>
        match c.IsCodeAlive env with
        | (.err e, tr) => (.err e, tr)
        | (.crash m, tr) => (.crash m, tr)
        | (.ok (isCodeAlive, _), tr) =>
          if !isCodeAlive then (.err ErrorWasmCodeNeedsRestore, tr)
          else
            match c.getContractIdPreimage env with
            | .err e => (.err e, tr)
            | .crash m => (.crash m, tr)
            | .ok contractIdPreimage =>
              let createContract : CreateContractArgs :=
                { ContractIdPreimage := contractIdPreimage,
                  WasmHash := c.wasmHash }
              let createOp : Operation :=
                .invokeHostFunction (.createContract createContract) [] none
                  src.AccountId
              match c.simulateSubmitHostFunction env createOp with
              | (r, tr2) => (r, tr ++ tr2)

/-- contract.go Restore: read-write footprint of code key and instance key,
attached as soroban data of a restore-footprint operation, then
simulate and send. -/
def Contract.Restore (env : Codec) (c : Contract) :
    (Res SendTransactionResult × Contract) × List NetCall :=
  match c.GetCodeKey with
  | .error e => ((.err e, c), [])
  | .ok codeKey =>
    match c.GetFootprint env with
    | .err e => ((.err e, c), [])
    | .crash m => ((.crash m, c), [])
    | .ok (instanceKey, c) =>
      let readWrite := [codeKey, instanceKey]
      match c.source with
      | none => ((.crash "nil pointer dereference", c), [])
      | some src =>
        let transaction :=
          (((((NewTransctionBuilder.Client c.client).SourceAccount
              c.source).Signer c.kp).Operation
              (.restoreFootprint none src.AccountId)).TimeBounds
              (NewTimeout 30)).SorobanData
            { Resources := { Footprint := { ReadWrite := readWrite } } }
        match transaction.Simulate env with
        | ((.err e, _), tr) => ((.err e, c), tr)
        | ((.crash m, _), tr) => ((.crash m, c), tr)
        | ((.ok _, transaction), tr) =>
          match transaction.Send with
          | (r, tr2) => ((r, c), tr ++ tr2)

/-- contract.go invokeBuilder Send: requires a function name and a live
contract, then invoke with restore = false. -/
def invokeBuilder.Send (env : Codec) (b : invokeBuilder) :
    (Res SendTransactionResult × Contract) × List NetCall :=
  if b.build.function == "" then
    ((.err ErrorInvokeRequiresFunction, b.contract), [])
  else
    match b.contract.IsAlive env with
    | (.err e, tr) => ((.err e, b.contract), tr)
    | (.crash m, tr) => ((.crash m, b.contract), tr)
    | (.ok (isAlive, c), tr) =>
      if !isAlive then ((.err ErrorContractNeedsRestore, c), tr)
      else
        match c.invoke env b.build false with
        | ((r, c), tr2) => ((r, c), tr ++ tr2)

/-- contract.go invokeBuilder RestoreAndSend: on a dead contract, restore
and poll first (poll outcome discarded), then invoke with restore = true. -/
def invokeBuilder.RestoreAndSend (env : Codec) (b : invokeBuilder) :
    (Res SendTransactionResult × Contract) × List NetCall :=
  if b.build.function == "" then
    ((.err ErrorInvokeRequiresFunction, b.contract), [])
  else
    match b.contract.IsAlive env with
    | (.err e, tr) => ((.err e, b.contract), tr)
    | (.crash m, tr) => ((.crash m, b.contract), tr)
    | (.ok (isAlive, c), tr) =>
      if !isAlive then
        match c.Restore env with
        | ((.err e, c), tr2) => ((.err e, c), tr ++ tr2)
        | ((.crash m, c), tr2) => ((.crash m, c), tr ++ tr2)
        | ((.ok res, c), tr2) =>
          match c.client with
          | none => ((.crash "nil pointer dereference", c), tr ++ tr2)
          | some client =>
            match client.waitCompletedTransaction res.Hash with
            | (_, tr3, _) =>
              match c.invoke env b.build true with
              | ((r, c), tr4) => ((r, c), tr ++ tr2 ++ tr3 ++ tr4)
      else
        match c.invoke env b.build true with
        | ((r, c), tr4) => ((r, c), tr ++ tr4)

/-- The sendTransaction submissions inside a call trace. -/
def sendCalls (tr : List NetCall) : List NetCall :=
  tr.filter NetCall.isSend

/-- The soroban data carried by each submitted single-operation
restore-footprint transaction in a trace. -/
def sentRestoreData (tr : List NetCall) : List (Option SorobanTransactionData) :=
  tr.filterMap fun nc =>
    match nc with
    | .sendCall stx =>
      match stx.tx.Operations with
      | [.restoreFootprint ext _] => some ext
      | _ => none
    | _ => none

/-! ### Concrete fixtures used by counterexamples and witnesses -/

/-- A concrete codec: hashes and encodings are stand-ins, decoders embed
their input so that distinct blobs decode to distinct values. -/
def env0 : Codec :=
  { hashStr := fun _ => [7],
    hashBytes := fun _ => [8],
    marshalHashIdPreimage := fun _ => .ok [9],
    marshalLedgerKeyBase64 := fun _ => .ok "KEY",
    addressToAccountId := fun s => .ok { raw := s },
    decodeScVal := fun s => .ok (.decoded s),
    decodeAuthEntry := fun s => .ok { rest := s },
    decodeSorobanData := fun s =>
      .ok { Resources := { Footprint := {} }, rest := s } }

/-- A client none of whose RPC methods answer (only the passphrase is used). -/
def clP : Client := { PassPhrase := "p" }

def c1c : Contract :=
  { salt := [2], source := some { AccountId := "G" }, client := some clP }

def c10c : Contract :=
  { address := some (.contract [3]) }

def cl2e : Client :=
  { PassPhrase := "p",
    GetLedgerEntries := fun _ => .ok { LatestLedger := 5, Entries := [] } }

def cl2eq : Client :=
  { PassPhrase := "p",
    GetLedgerEntries := fun _ =>
      .ok { LatestLedger := 5, Entries := [{ LiveUntilLedgerSeq := 5 }] } }

def cl2lt : Client :=
  { PassPhrase := "p",
    GetLedgerEntries := fun _ =>
      .ok { LatestLedger := 5, Entries := [{ LiveUntilLedgerSeq := 4 }] } }

def c2base : Contract :=
  { wasmHash := [1], salt := [2], source := some { AccountId := "G" },
    kp := some { seed := "S" }, address := some (.contract [3]) }

def c2e : Contract := { c2base with client := some cl2e }

def c2eq : Contract := { c2base with client := some cl2eq }

def c2lt : Contract := { c2base with client := some cl2lt }

def t9empty : Transaction := {}

def t9other : Transaction :=
  { build := { operations := [.otherOp "payment", .restoreFootprint none "G"] } }

def t9restore : Transaction :=
  { build := { operations := [.restoreFootprint none "G", .otherOp "x"] } }

def t9invoke : Transaction :=
  { build := { operations :=
      [.invokeHostFunction (.uploadContractWasm [1]) [] none "G",
       .otherOp "x"] } }

def auth9 : List SorobanAuthorizationEntry := [{ rest := "A" }]

def data9 : SorobanTransactionData :=
  { Resources := { Footprint := {} }, rest := "D" }

/-- A client whose transaction polls answer NOT_FOUND twice, then SUCCESS. -/
def cl7 : Client :=
  { PassPhrase := "p",
    GetTransaction := fun _ j =>
      .ok { Status := if j < 2 then "NOT_FOUND" else "SUCCESS" } }

/-- A client whose transaction polls always answer NOT_FOUND. -/
def cl7nf : Client :=
  { PassPhrase := "p",
    GetTransaction := fun _ _ => .ok { Status := "NOT_FOUND" } }

def res3 : SimulateTransactionResult :=
  { TransactionData := "TD", MinResourceFee := 7,
    Results := [{ Auth := ["A1", "A2"], XDR := "X" }],
    RestorePreamble := { MinResourceFee := 0, TransactionData := "" } }

def cl3 : Client :=
  { PassPhrase := "p", SimulateTransaction := fun _ => .ok res3 }

def t3 : Transaction :=
  { client := some cl3,
    build := { source := some { AccountId := "G" },
               operations :=
                 [.invokeHostFunction (.uploadContractWasm [1]) [] none "G"],
               baseFee := MinBaseFee, incrementSequenceNum := true } }

/-- A simulation result whose restore preamble carries a non-zero fee, and
whose own transaction data ("TD") differs from the preamble's ("PRE"). -/
def res5 : SimulateTransactionResult :=
  { TransactionData := "TD", MinResourceFee := 7, Results := [],
    RestorePreamble := { MinResourceFee := 5, TransactionData := "PRE" } }

def cl5 : Client :=
  { PassPhrase := "p",
    GetLedgerEntries := fun _ =>
      .ok { LatestLedger := 5, Entries := [{ LiveUntilLedgerSeq := 5 }] },
    SimulateTransaction := fun _ => .ok res5 }

def c5c : Contract :=
  { wasmHash := [1], salt := [2], source := some { AccountId := "G" },
    kp := some { seed := "S" }, address := some (.contract [3]),
    client := some cl5 }

def b5 : invokeBuilder := { contract := c5c, build := { function := "hello" } }

def cl6 : Client :=
  { PassPhrase := "p",
    GetLedgerEntries := fun _ =>
      .ok { LatestLedger := 5, Entries := [{ LiveUntilLedgerSeq := 5 }] },
    SimulateTransaction := fun _ => .ok res5,
    SendTransaction := fun _ => .ok { Hash := "H" },
    GetTransaction := fun _ _ => .ok { Status := "SUCCESS" } }

def c6c : Contract := { c5c with client := some cl6 }

def b6 : invokeBuilder := { contract := c6c, build := { function := "hello" } }

def cl8 : Client :=
  { PassPhrase := "p",
    SimulateTransaction := fun _ => .ok res3,
    SendTransaction := fun _ => .ok { Hash := "H" } }

/-- A Contract with client, source and key pair set but no wasm bytes. -/
def c8 : Contract :=
  { client := some cl8, source := some { AccountId := "G" },
    kp := some { seed := "S" } }

def c8noClient : Contract :=
  { source := some { AccountId := "G" }, kp := some { seed := "S" } }

def c8noSource : Contract :=
  { client := some cl8, kp := some { seed := "S" } }

def c8noKp : Contract :=
  { client := some cl8, source := some { AccountId := "G" } }

/-! ### Helper lemmas -/

/-- On a Contract whose required fields are present and whose address is not
yet cached, GetAddress is exactly the spec-side derivation pipeline, plus
caching of the derived address. -/
theorem getAddress_spec_eq (env : Codec) (c : Contract) (src : Account)
    (cl : Client) (haddr : c.address = none) (hsrc : c.source = some src)
    (hcl : c.client = some cl) (hsalt : c.salt.length ≠ 0) :
    c.GetAddress env =
      match deriveAddressSpec env src.AccountId c.salt cl.PassPhrase with
      | .ok a => .ok (a, { c with address := some a })
      | .error e => .err e := by
  have hs : (c.salt.length == 0) = false := by
    simpa using hsalt
  unfold Contract.GetAddress Contract.getContractIdPreimage deriveAddressSpec
  simp only [haddr, hsrc, hcl, hs, Bool.false_eq_true, if_false]
  cases hacc : env.addressToAccountId src.AccountId with
  | error e => simp
  | ok acc =>
    simp only []
    cases hm : env.marshalHashIdPreimage
        { Type_ := .contractId,
          ContractId := { NetworkId := env.hashStr cl.PassPhrase,
                          ContractIdPreimage :=
                            .fromAddress { Address := .account acc,
                                           Salt := c.salt } } } with
    | error e => simp
    | ok bs => simp

/-- A successful GetAddress leaves the returned Contract with the returned
address cached. -/
theorem getAddress_ok_cached (env : Codec) (c c' : Contract) (a : ScAddress)
    (h : c.GetAddress env = .ok (a, c')) : c'.address = some a := by
  unfold Contract.GetAddress at h
  cases haddr : c.address with
  | some a0 =>
    simp only [haddr, Res.ok.injEq, Prod.mk.injEq] at h
    obtain ⟨h1, h2⟩ := h
    subst h1
    subst h2
    exact haddr
  | none =>
    simp only [haddr] at h
    cases hsrc : c.source with
    | none => simp only [hsrc] at h; simp at h
    | some src =>
      simp only [hsrc] at h
      cases hcl : c.client with
      | none => simp only [hcl] at h; simp at h
      | some cl =>
        simp only [hcl] at h
        by_cases hs : (c.salt.length == 0) = true
        · rw [if_pos hs] at h; simp at h
        · rw [if_neg hs] at h
          cases hpre : c.getContractIdPreimage env with
          | err e => simp only [hpre] at h; simp at h
          | crash m => simp only [hpre] at h; simp at h
          | ok pre =>
            simp only [hpre] at h
            split at h
            · simp at h
            · simp only [Res.ok.injEq, Prod.mk.injEq] at h
              obtain ⟨h1, h2⟩ := h
              subst h1
              subst h2
              rfl

/-! ### Claim theorems -/

/-- C10: once a Contract's address is set (via the Address setter or a prior
successful GetAddress), GetAddress returns exactly the cached address and the
unchanged Contract, with no validation of source, client or salt; hence two
successive GetAddress calls agree. -/
theorem c10_getAddress_cached (env : Codec) (c : Contract) :
    (∀ a, c.address = some a → c.GetAddress env = .ok (a, c)) ∧
    (∀ a c', c.GetAddress env = .ok (a, c') →
       c'.GetAddress env = .ok (a, c')) := by
  constructor
  · intro a h
    unfold Contract.GetAddress
    rw [h]
  · intro a c' h
    have hc := getAddress_ok_cached env c c' a h
    unfold Contract.GetAddress
    rw [hc]

/-- C10 witness: a cached address is returned as-is even though source,
client and salt were never set, and a repeated call returns it again. -/
theorem c10_getAddress_cached_witness :
    c10c.GetAddress env0 = .ok (.contract [3], c10c) ∧
    (c10c.GetAddress env0 = .ok (.contract [3], c10c) →
      c10c.GetAddress env0 = .ok (.contract [3], c10c)) := by
  refine ⟨(c10_getAddress_cached env0 c10c).1 (.contract [3]) rfl, ?_⟩
  exact fun h => (c10_getAddress_cached env0 c10c).2 (.contract [3]) c10c h

/-- C1: with source, client and salt set and no cached address, GetAddress is
exactly the spec pipeline - from-address preimage, hashed passphrase as
network id, canonical pre-image record, encoded, hashed, wrapped as a
contract address (and cached); consequently any two Contracts agreeing on
(source account id, salt, network passphrase) derive the same address. -/
theorem c1_getAddress_derivation (env : Codec) (c : Contract) (src : Account)
    (cl : Client) (haddr : c.address = none) (hsrc : c.source = some src)
    (hcl : c.client = some cl) (hsalt : c.salt.length ≠ 0) :
    (∀ a, deriveAddressSpec env src.AccountId c.salt cl.PassPhrase = .ok a →
       c.GetAddress env = .ok (a, { c with address := some a })) ∧
    (∀ e, deriveAddressSpec env src.AccountId c.salt cl.PassPhrase = .error e →
       c.GetAddress env = .err e) ∧
    (∀ (c₂ : Contract) (src₂ : Account) (cl₂ : Client),
       c₂.address = none → c₂.source = some src₂ →
       c₂.client = some cl₂ → c₂.salt = c.salt →
       src₂.AccountId = src.AccountId → cl₂.PassPhrase = cl.PassPhrase →
       ∀ (a : ScAddress) (st : Contract) (a' : ScAddress) (st' : Contract),
         c.GetAddress env = .ok (a, st) →
         c₂.GetAddress env = .ok (a', st') → a' = a) := by
  have hmain := getAddress_spec_eq env c src cl haddr hsrc hcl hsalt
  refine ⟨?_, ?_, ?_⟩
  · intro a ha
    rw [hmain, ha]
  · intro e he
    rw [hmain, he]
  · intro c₂ src₂ cl₂ h1 h2 h3 h4 h5 h6 a st a' st' hga hga₂
    have hmain₂ := getAddress_spec_eq env c₂ src₂ cl₂ h1 h2 h3
      (by rw [h4]; exact hsalt)
    rw [hmain] at hga
    rw [hmain₂, h4, h5, h6] at hga₂
    cases hd : deriveAddressSpec env src.AccountId c.salt cl.PassPhrase with
    | error e =>
      rw [hd] at hga
      simp at hga
    | ok a0 =>
      rw [hd] at hga hga₂
      simp only [Res.ok.injEq, Prod.mk.injEq] at hga hga₂
      rw [← hga₂.1]
      exact hga.1

/-- C1 witness: under the concrete codec, a fully configured Contract with
no cached address derives and caches the pipeline address. -/
theorem c1_getAddress_derivation_witness :
    c1c.address = none ∧ c1c.salt.length ≠ 0 ∧
    c1c.GetAddress env0 =
      .ok (.contract [8], { c1c with address := some (.contract [8]) }) := by
  refine ⟨rfl, by decide, ?_⟩
  exact (c1_getAddress_derivation env0 c1c { AccountId := "G" } clP rfl rfl rfl
    (by decide)).1 (.contract [8]) rfl

/-- C2: an entry is alive iff liveUntilLedgerSeq is at least the response's
latestLedger, and a response with zero entries yields alive = false with no
error in IsInstanceAlive; but IsCodeAlive, contrary to the claim, panics
(index out of range) on a zero-entry response instead of returning false. -/
theorem c2_liveness_empty_entries :
    (c2e.IsCodeAlive env0 =
      (.crash "index out of range", [.getLedgerEntriesCall "KEY"])) ∧
    (c2e.IsInstanceAlive env0 =
      (.ok ((false, some { LatestLedger := 5, Entries := [] }), c2e),
       [.getLedgerEntriesCall "KEY"])) ∧
    (c2eq.IsCodeAlive env0 =
      (.ok (true, { LatestLedger := 5, Entries := [{ LiveUntilLedgerSeq := 5 }] }),
       [.getLedgerEntriesCall "KEY"])) ∧
    (c2lt.IsCodeAlive env0 =
      (.ok (false, { LatestLedger := 5, Entries := [{ LiveUntilLedgerSeq := 4 }] }),
       [.getLedgerEntriesCall "KEY"])) ∧
    (c2eq.IsInstanceAlive env0 =
      (.ok ((true,
             some { LatestLedger := 5, Entries := [{ LiveUntilLedgerSeq := 5 }] }),
            c2eq),
       [.getLedgerEntriesCall "KEY"])) := by
  exact ⟨rfl, rfl, rfl, rfl, rfl⟩

/-- C9: the Authorization and SorobanData setters touch only the leading
operation and only when it supports the data (invoke-host-function for both,
restore-footprint additionally for SorobanData); a non-Soroban leading
operation is left unchanged without failure - except that, contrary to the
claim, Authorization on an empty operation list panics (index out of range)
where SorobanData is a no-op. -/
theorem c9_setters_leading_operation :
    (t9empty.Authorization auth9 = .crash "index out of range") ∧
    (t9empty.SorobanData data9 = t9empty) ∧
    (t9other.Authorization auth9 = .ok t9other) ∧
    (t9other.SorobanData data9 = t9other) ∧
    (t9restore.Authorization auth9 = .ok t9restore) ∧
    (t9restore.SorobanData data9 =
      { build := { operations :=
          [.restoreFootprint (some data9) "G", .otherOp "x"] } }) ∧
    (t9invoke.Authorization auth9 =
      .ok { build := { operations :=
        [.invokeHostFunction (.uploadContractWasm [1]) auth9 none "G",
         .otherOp "x"] } }) ∧
    (t9invoke.SorobanData data9 =
      { build := { operations :=
          [.invokeHostFunction (.uploadContractWasm [1]) [] (some data9) "G",
           .otherOp "x"] } }) := by
  exact ⟨rfl, rfl, rfl, rfl, rfl, rfl, rfl, rfl⟩

/-- When every queried status up to the fuel bound is NOT_FOUND, the wait
loop consumes all attempts, sleeping i*2 after each, and ends with an absent
result and no error. -/
theorem waitLoop_all_notfound (c : Client) (hash : String) (fuel : Nat) :
    ∀ i, (∀ j, j < fuel → ∃ r, c.GetTransaction hash (i + j) = .ok r ∧
          r.Status = "NOT_FOUND") →
    c.waitLoop hash i fuel =
      (.ok none, (List.range' i fuel).map NetCall.getTransactionCall,
       (List.range' i fuel).map (fun j => j * 2)) := by
  induction fuel with
  | zero =>
    intro i h
    simp [Client.waitLoop]
  | succ n ih =>
    intro i h
    obtain ⟨r, hr, hst⟩ := h 0 (Nat.succ_pos n)
    rw [Nat.add_zero] at hr
    unfold Client.waitLoop
    simp only [hr, hst, bne_self_eq_false, Bool.false_eq_true, if_false]
    rw [ih (i + 1) (fun j hj => by
      obtain ⟨r', h1, h2⟩ := h (j + 1) (Nat.succ_lt_succ hj)
      exact ⟨r', by rw [show i + 1 + j = i + (j + 1) from by omega]; exact h1,
             h2⟩)]
    simp [List.range'_succ]

/-- When the first non-NOT_FOUND status appears at attempt k (within the
fuel bound), the wait loop returns it immediately after k+1 queries and k
sleeps. -/
theorem waitLoop_found (c : Client) (hash : String) (k : Nat) :
    ∀ i fuel, k < fuel →
    (∀ j, j < k → ∃ r, c.GetTransaction hash (i + j) = .ok r ∧
        r.Status = "NOT_FOUND") →
    ∀ r, c.GetTransaction hash (i + k) = .ok r → r.Status ≠ "NOT_FOUND" →
    c.waitLoop hash i fuel =
      (.ok (some r), (List.range' i (k + 1)).map NetCall.getTransactionCall,
       (List.range' i k).map (fun j => j * 2)) := by
  induction k with
  | zero =>
    intro i fuel hk h r hr hst
    cases fuel with
    | zero => omega
    | succ n =>
      rw [Nat.add_zero] at hr
      unfold Client.waitLoop
      have hb : (r.Status != "NOT_FOUND") = true := by
        simpa using hst
      simp [hr, hb, List.range'_succ]
  | succ m ih =>
    intro i fuel hk h r hr hst
    cases fuel with
    | zero => omega
    | succ n =>
      obtain ⟨r0, hr0, hst0⟩ := h 0 (Nat.succ_pos m)
      rw [Nat.add_zero] at hr0
      unfold Client.waitLoop
      simp only [hr0, hst0, bne_self_eq_false, Bool.false_eq_true, if_false]
      rw [ih (i + 1) n (by omega)
        (fun j hj => by
          obtain ⟨r', h1, h2⟩ := h (j + 1) (by omega)
          exact ⟨r', by rw [show i + 1 + j = i + (j + 1) from by omega];
                        exact h1, h2⟩)
        r (by rw [show i + 1 + m = i + (m + 1) from by omega]; exact hr) hst]
      simp [List.range'_succ]

/-- C7: the completion poller queries the hash at most maxAttempts times,
returns immediately with the first status that is not NOT_FOUND, sleeps i*2
time units after NOT_FOUND attempt i (attempt 0 sleeps 0), and after
maxAttempts NOT_FOUND answers returns an absent result with no error; the
shipped poller is this loop with maxAttempts fixed to 5. -/
theorem c7_completion_poller (c : Client) (hash : String) (n : Nat) :
    (c.waitCompletedTransaction hash = c.waitLoop hash 0 5) ∧
    ((∀ j, j < n → ∃ r, c.GetTransaction hash j = .ok r ∧
        r.Status = "NOT_FOUND") →
      c.waitLoop hash 0 n =
        (.ok none, (List.range n).map NetCall.getTransactionCall,
         (List.range n).map (fun j => j * 2))) ∧
    (∀ k, k < n →
      (∀ j, j < k → ∃ r, c.GetTransaction hash j = .ok r ∧
          r.Status = "NOT_FOUND") →
      ∀ r, c.GetTransaction hash k = .ok r → r.Status ≠ "NOT_FOUND" →
      c.waitLoop hash 0 n =
        (.ok (some r), (List.range (k + 1)).map NetCall.getTransactionCall,
         (List.range k).map (fun j => j * 2))) := by
  refine ⟨rfl, ?_, ?_⟩
  · intro h
    rw [List.range_eq_range']
    exact waitLoop_all_notfound c hash n 0 (fun j hj => by
      simpa using h j hj)
  · intro k hk h r hr hst
    rw [List.range_eq_range', List.range_eq_range']
    exact waitLoop_found c hash k 0 n hk
      (fun j hj => by simpa using h j hj) r (by simpa using hr) hst

/-- C7 witness: with answers [NOT_FOUND, NOT_FOUND, SUCCESS] the poller
returns on the third query with sleeps [0, 2]; with three NOT_FOUND answers
and three attempts it returns the absent result after exactly three queries
with sleeps [0, 2, 4]. -/
theorem c7_completion_poller_witness :
    cl7.waitLoop "h" 0 5 =
      (.ok (some { Status := "SUCCESS" }),
       [.getTransactionCall 0, .getTransactionCall 1, .getTransactionCall 2],
       [0, 2]) ∧
    cl7nf.waitLoop "h" 0 3 =
      (.ok none,
       [.getTransactionCall 0, .getTransactionCall 1, .getTransactionCall 2],
       [0, 2, 4]) := by
  constructor
  · have h := (c7_completion_poller cl7 "h" 5).2.2 2 (by omega)
      (by intro j hj; interval_cases j <;> exact ⟨_, rfl, rfl⟩)
      { Status := "SUCCESS" } rfl (by decide)
    rw [h]
    rfl
  · have h := (c7_completion_poller cl7nf "h" 3).2.1
      (fun j hj => ⟨{ Status := "NOT_FOUND" }, rfl, rfl⟩)
    rw [h]
    rfl

/-- A successfully built transaction carries the builder's
incrementSequenceNum flag. -/
theorem buildTx_flag (t : Transaction) (tx : BuiltTx)
    (h : t.buildTx = .ok tx) :
    tx.IncrementSequenceNum = t.build.incrementSequenceNum := by
  unfold Transaction.buildTx NewTransaction at h
  cases hsrc : t.build.source with
  | none =>
    simp only [hsrc] at h
    simp at h
  | some src =>
    simp only [hsrc] at h
    by_cases he : t.build.operations.isEmpty = true
    · rw [if_pos he] at h
      simp at h
    · rw [if_neg he] at h
      simp only [Except.ok.injEq] at h
      rw [← h]

/-- The dry-run transaction built inside Simulate never carries the
sequence-increment flag. -/
theorem dryTx_flag (t : Transaction) (tx : BuiltTx) (h : t.dryTx = .ok tx) :
    tx.IncrementSequenceNum = false := by
  unfold Transaction.dryTx at h
  simpa using buildTx_flag _ _ h

/-- SorobanData does not touch the sequence-increment flag. -/
theorem sorobanData_flag (t : Transaction) (d : SorobanTransactionData) :
    (t.SorobanData d).build.incrementSequenceNum =
      t.build.incrementSequenceNum := by
  unfold Transaction.SorobanData
  split
  · rfl
  · split <;> rfl

/-- Authorization does not touch the sequence-increment flag. -/
theorem authorization_flag (t t' : Transaction)
    (a : List SorobanAuthorizationEntry) (h : t.Authorization a = .ok t') :
    t'.build.incrementSequenceNum = t.build.incrementSequenceNum := by
  unfold Transaction.Authorization at h
  cases hops : t.build.operations with
  | nil =>
    simp only [hops] at h
    simp at h
  | cons op rest =>
    simp only [hops] at h
    cases op with
    | invokeHostFunction hf a0 e0 s0 =>
      simp only [Res.ok.injEq] at h
      rw [← h]
    | restoreFootprint e0 s0 =>
      simp only [Res.ok.injEq] at h
      rw [← h]
    | otherOp tag =>
      simp only [Res.ok.injEq] at h
      rw [← h]

/-- C3: after a successful Simulate (simulation answered, every
per-operation result and auth entry decoded, transaction data decoded) on a
builder whose leading operation is an invoke-host-function, the builder's
base fee is the simulation's minResourceFee plus the network minimum base
fee, and the leading operation's attached authorization entries are exactly
the per-operation auth entries, concatenated in decoding order. -/
theorem c3_simulate_fee_and_auth (env : Codec) (t : Transaction) (cl : Client)
    (tx : BuiltTx) (res : SimulateTransactionResult)
    (auths : List SorobanAuthorizationEntry) (d : SorobanTransactionData)
    (hf : HostFunction) (a0 : List SorobanAuthorizationEntry)
    (e0 : Option SorobanTransactionData) (s0 : String) (rest : List Operation)
    (hcl : t.client = some cl) (hdry : t.dryTx = .ok tx)
    (hsim : cl.SimulateTransaction tx = .ok res)
    (hda : decodeAuths env res.Results = .ok auths)
    (hdd : env.decodeSorobanData res.TransactionData = .ok d)
    (hops : t.build.operations = .invokeHostFunction hf a0 e0 s0 :: rest) :
    ∃ t', t.Simulate env = ((.ok res, t'), [.simulateCall tx]) ∧
      t'.build.baseFee = res.MinResourceFee + MinBaseFee ∧
      t'.build.operations =
        .invokeHostFunction hf auths (some d) s0 :: rest := by
  have hchain :
      ((t.BaseFee (res.MinResourceFee + MinBaseFee)).SorobanData
        d).Authorization auths =
      .ok { t with build := { t.build with
              baseFee := res.MinResourceFee + MinBaseFee,
              operations :=
                .invokeHostFunction hf auths (some d) s0 :: rest } } := by
    unfold Transaction.BaseFee Transaction.SorobanData Transaction.Authorization
    simp only [hops]
  refine ⟨{ t with build := { t.build with
      baseFee := res.MinResourceFee + MinBaseFee,
      operations := .invokeHostFunction hf auths (some d) s0 :: rest } },
    ?_, rfl, rfl⟩
  unfold Transaction.Simulate
  simp only [hdry, hcl, hsim, hda, hdd, hchain]

/-- C3 witness: a concrete simulation with fee 7 and two auth entries leaves
the builder at fee 107 with both entries attached to the invoke operation. -/
theorem c3_simulate_fee_and_auth_witness :
    (t3.Simulate env0).1.1 = .ok res3 ∧
    (t3.Simulate env0).1.2.build.baseFee = 107 ∧
    (t3.Simulate env0).1.2.build.operations =
      [.invokeHostFunction (.uploadContractWasm [1])
        [{ rest := "A1" }, { rest := "A2" }]
        (some { Resources := { Footprint := {} }, rest := "TD" }) "G"] := by
  obtain ⟨t', h1, h2, h3⟩ := c3_simulate_fee_and_auth env0 t3 cl3 _ res3
    [{ rest := "A1" }, { rest := "A2" }]
    { Resources := { Footprint := {} }, rest := "TD" }
    (.uploadContractWasm [1]) [] none "G" [] rfl rfl rfl rfl rfl rfl
  rw [h1]
  exact ⟨rfl, by rw [h2]; rfl, by rw [h3]⟩

/-- C4: the transaction finalized inside Simulate is built with
sequence-number incrementing disabled; the builder's flag is restored by the
time Simulate returns; and a subsequent Send builds with the builder's own
flag (so incrementing is allowed again). -/
theorem c4_simulate_dry_run_flag (env : Codec) (t : Transaction) :
    (t.Simulate env).1.2.build.incrementSequenceNum =
      t.build.incrementSequenceNum ∧
    (∀ tx, NetCall.simulateCall tx ∈ (t.Simulate env).2 →
       tx.IncrementSequenceNum = false) ∧
    (∀ stx, NetCall.sendCall stx ∈ (t.Send).2 →
       stx.tx.IncrementSequenceNum = t.build.incrementSequenceNum) := by
  refine ⟨?_, ?_, ?_⟩
  · unfold Transaction.Simulate
    split
    · rfl
    · split
      · rfl
      · split
        · rfl
        · split
          · rfl
          · split
            · rfl
            · split
              · rfl
              · rfl
              · rename_i t2 heq
                have h2 := authorization_flag _ _ _ heq
                rw [sorobanData_flag] at h2
                exact h2
  · unfold Transaction.Simulate
    split
    · intro tx hm
      simp at hm
    · rename_i tx0 heq
      split
      · intro tx hm
        simp at hm
      · split
        · intro tx hm
          simp only [List.mem_singleton, NetCall.simulateCall.injEq] at hm
          subst hm
          exact dryTx_flag _ _ heq
        · split
          · intro tx hm
            simp only [List.mem_singleton, NetCall.simulateCall.injEq] at hm
            subst hm
            exact dryTx_flag _ _ heq
          · split
            · intro tx hm
              simp only [List.mem_singleton, NetCall.simulateCall.injEq] at hm
              subst hm
              exact dryTx_flag _ _ heq
            · split
              · intro tx hm
                simp only [List.mem_singleton, NetCall.simulateCall.injEq] at hm
                subst hm
                exact dryTx_flag _ _ heq
              · intro tx hm
                simp only [List.mem_singleton, NetCall.simulateCall.injEq] at hm
                subst hm
                exact dryTx_flag _ _ heq
              · intro tx hm
                simp only [List.mem_singleton, NetCall.simulateCall.injEq] at hm
                subst hm
                exact dryTx_flag _ _ heq
  · unfold Transaction.Send
    split
    · intro stx hm
      simp at hm
    · rename_i tx0 heq
      split
      · intro stx hm
        simp at hm
      · split
        · intro stx hm
          simp at hm
        · rename_i stx0 hsig
          split <;> intro stx hm <;>
            simp only [List.mem_singleton, NetCall.sendCall.injEq] at hm <;>
            subst hm <;>
            (unfold Sign at hsig
             simp only [Except.ok.injEq] at hsig
             rw [← hsig]
             exact buildTx_flag _ _ heq)

/-- C4 witness: the concrete builder t3 keeps its flag across Simulate. -/
theorem c4_simulate_dry_run_flag_witness :
    (t3.Simulate env0).1.2.build.incrementSequenceNum =
      t3.build.incrementSequenceNum ∧
    t3.build.incrementSequenceNum = true := by
  exact ⟨(c4_simulate_dry_run_flag env0 t3).1, rfl⟩

/-- The code-liveness query never submits a transaction. -/
theorem isCodeAlive_no_send (env : Codec) (c : Contract) :
    sendCalls (c.IsCodeAlive env).2 = [] := by
  unfold Contract.IsCodeAlive
  repeat' split
  all_goals simp [sendCalls, NetCall.isSend]

/-- The instance-liveness query never submits a transaction. -/
theorem isInstanceAlive_no_send (env : Codec) (c : Contract) :
    sendCalls (c.IsInstanceAlive env).2 = [] := by
  unfold Contract.IsInstanceAlive
  repeat' split
  all_goals simp [sendCalls, NetCall.isSend]

/-- IsAlive never submits a transaction. -/
theorem isAlive_no_send (env : Codec) (c : Contract) :
    sendCalls (c.IsAlive env).2 = [] := by
  have h1 := isCodeAlive_no_send env c
  have h2 := isInstanceAlive_no_send env c
  unfold Contract.IsAlive
  rcases hc : c.IsCodeAlive env with ⟨rc, trc⟩
  rw [hc] at h1
  rcases hi : c.IsInstanceAlive env with ⟨ri, tri⟩
  rw [hi] at h2
  simp only [sendCalls] at h1 h2 ⊢
  cases rc with
  | err e => simpa using h1
  | crash m => simpa using h1
  | ok v =>
    cases ri with
    | err e => simp [List.filter_append, h1, h2]
    | crash m => simp [List.filter_append, h1, h2]
    | ok w =>
      obtain ⟨⟨instb, g⟩, cc⟩ := w
      simp [List.filter_append, h1, h2]

/-- The completion poller never submits a transaction. -/
theorem waitLoop_no_send (c : Client) (hash : String) (fuel : Nat) :
    ∀ i, sendCalls (c.waitLoop hash i fuel).2.1 = [] := by
  induction fuel with
  | zero =>
    intro i
    simp [Client.waitLoop, sendCalls]
  | succ n ih =>
    intro i
    unfold Client.waitLoop
    cases hr : c.GetTransaction hash i with
    | error e => simp [sendCalls, NetCall.isSend]
    | ok res =>
      by_cases hb : (res.Status != "NOT_FOUND") = true
      · simp [hb, sendCalls, NetCall.isSend]
      · have hb' : (res.Status != "NOT_FOUND") = false := by
          simpa using hb
        rcases hw : c.waitLoop hash (i + 1) n with ⟨r, tr, sl⟩
        have hih := ih (i + 1)
        rw [hw] at hih
        simp only [sendCalls] at hih ⊢
        simp [hb', hw, NetCall.isSend, hih]

/-- A successfully built transaction carries the builder's operation list. -/
theorem buildTx_ops (t : Transaction) (tx : BuiltTx) (h : t.buildTx = .ok tx) :
    tx.Operations = t.build.operations := by
  unfold Transaction.buildTx NewTransaction at h
  cases hsrc : t.build.source with
  | none =>
    simp only [hsrc] at h
    simp at h
  | some src =>
    simp only [hsrc] at h
    by_cases he : t.build.operations.isEmpty = true
    · rw [if_pos he] at h
      simp at h
    · rw [if_neg he] at h
      simp only [Except.ok.injEq] at h
      rw [← h]

/-- A Send that returns a result submitted exactly one signed transaction,
built from the builder's own operation list. -/
theorem send_ok_trace (t : Transaction) (r : SendTransactionResult)
    (tr : List NetCall) (h : t.Send = (.ok r, tr)) :
    ∃ stx, tr = [.sendCall stx] ∧ stx.tx.Operations = t.build.operations := by
  unfold Transaction.Send at h
  cases hb : t.buildTx with
  | error e =>
    simp only [hb] at h
    simp at h
  | ok tx =>
    simp only [hb] at h
    cases hcl : t.client with
    | none =>
      simp only [hcl] at h
      simp at h
    | some cl =>
      simp only [hcl, Sign] at h
      cases hs : cl.SendTransaction
          { tx := tx, networkPassphrase := cl.PassPhrase,
            signers := t.build.signers } with
      | error e =>
        simp only [hs] at h
        simp at h
      | ok r0 =>
        simp only [hs, Prod.mk.injEq] at h
        exact ⟨{ tx := tx, networkPassphrase := cl.PassPhrase,
                 signers := t.build.signers },
               h.2.symm, buildTx_ops _ _ hb⟩

/-- Authorization succeeds on any builder with a leading operation. -/
theorem authorization_ok (t : Transaction) (a : List SorobanAuthorizationEntry)
    (op : Operation) (rest : List Operation)
    (hops : t.build.operations = op :: rest) :
    ∃ t', t.Authorization a = .ok t' := by
  unfold Transaction.Authorization
  simp only [hops]
  cases op <;> exact ⟨_, rfl⟩

/-- The invoke transaction builder carries the contract's client. -/
theorem invokeTx_client (c : Contract) (bd : invokeBuild) (a : ScAddress)
    (s : String) : (c.invokeTx bd a s).client = c.client := rfl

/-- C5: an Invoke.Send whose function name is set and whose liveness check
passes, but whose simulation reports a non-zero restorePreamble fee, fails
with ContractDataNeedsRestore and submits no transaction at all (the trace
holds the liveness queries and the dry-run simulation, and not one
sendTransaction call). -/
theorem c5_send_restore_gating (env : Codec) (b : invokeBuilder) (c : Contract)
    (cl : Client) (src : Account) (addr : ScAddress) (trA : List NetCall)
    (tx : BuiltTx) (res : SimulateTransactionResult)
    (auths : List SorobanAuthorizationEntry) (d : SorobanTransactionData)
    (hfn : b.build.function ≠ "")
    (hA : b.contract.IsAlive env = (.ok (true, c), trA))
    (haddr : c.address = some addr)
    (hsrc : c.source = some src)
    (hcl : c.client = some cl)
    (hdry : (c.invokeTx b.build addr src.AccountId).dryTx = .ok tx)
    (hsim : cl.SimulateTransaction tx = .ok res)
    (hda : decodeAuths env res.Results = .ok auths)
    (hdd : env.decodeSorobanData res.TransactionData = .ok d)
    (hres : res.RestorePreamble.MinResourceFee ≠ 0) :
    b.Send env = ((.err ErrorContractDataNeedsRestore, c),
      trA ++ [.simulateCall tx]) ∧
    sendCalls (b.Send env).2 = [] := by
  have hga : c.GetAddress env = .ok (addr, c) := by
    unfold Contract.GetAddress
    rw [haddr]
  have hfb : (b.build.function == "") = false := by
    simpa using hfn
  obtain ⟨t2, ht2⟩ := authorization_ok
    (((c.invokeTx b.build addr src.AccountId).BaseFee
      (res.MinResourceFee + MinBaseFee)).SorobanData d) auths _ _ rfl
  have hmain : b.Send env = ((.err ErrorContractDataNeedsRestore, c),
      trA ++ [.simulateCall tx]) := by
    unfold invokeBuilder.Send Contract.invoke Transaction.Simulate
    simp only [hfb, Bool.false_eq_true, if_false, hA, Bool.not_true, hga,
      hsrc, hdry, invokeTx_client, hcl, hsim, hda, hdd, ht2, if_pos hres,
      Bool.not_false, if_true]
  refine ⟨hmain, ?_⟩
  rw [hmain]
  have hAn := isAlive_no_send env b.contract
  rw [hA] at hAn
  simp only [sendCalls] at hAn ⊢
  simp [List.filter_append, hAn, NetCall.isSend]

/-- C5 witness: a concrete live contract whose simulation reports a
restore-preamble fee of 5 fails the Send with ContractDataNeedsRestore and
submits nothing. -/
theorem c5_send_restore_gating_witness :
    (b5.Send env0).1 = (.err ErrorContractDataNeedsRestore, c5c) ∧
    sendCalls (b5.Send env0).2 = [] := by
  obtain ⟨h1, h2⟩ := c5_send_restore_gating env0 b5 c5c cl5
    { AccountId := "G" } (.contract [3])
    [.getLedgerEntriesCall "KEY", .getLedgerEntriesCall "KEY"] _ res5 [] _
    (by decide) rfl rfl rfl rfl rfl rfl rfl rfl (by decide)
  constructor
  · rw [h1]
  · exact h2

/-- C6 counterexample: in a run of RestoreAndSend that hits the staleness
branch, the single restore-footprint submission carries the decode of the
simulation's own transactionData ("TD"), which differs from the decode of
the restorePreamble's transactionData ("PRE") that the claim names. -/
theorem c6_restore_data_counterexample :
    sentRestoreData (b6.RestoreAndSend env0).2 =
      [some { Resources := { Footprint := {} }, rest := "TD" }] ∧
    env0.decodeSorobanData res5.RestorePreamble.TransactionData =
      .ok { Resources := { Footprint := {} }, rest := "PRE" } ∧
    ({ Resources := { Footprint := {} }, rest := "TD" } :
        SorobanTransactionData) ≠
      { Resources := { Footprint := {} }, rest := "PRE" } := by
  exact ⟨rfl, rfl, by decide⟩

/-- C6 (amended): on staleness, RestoreAndSend submits exactly one
restore-footprint transaction - carrying the decode of the simulation
result's transactionData field (not the restore preamble's) and fee
restorePreamble.minResourceFee + minimum base fee - polls it, and then
submits the prepared invoke transaction regardless of the poll's outcome
(the poll result is never inspected). -/
theorem c6_restoreAndSend_one_restore (env : Codec) (b : invokeBuilder)
    (c : Contract) (cl : Client) (src : Account) (addr : ScAddress)
    (trA : List NetCall) (tx : BuiltTx) (res : SimulateTransactionResult)
    (auths : List SorobanAuthorizationEntry) (d : SorobanTransactionData)
    (t2 : Transaction) (rR : SendTransactionResult) (trR : List NetCall)
    (rI : SendTransactionResult) (trI : List NetCall)
    (hfn : b.build.function ≠ "")
    (hA : b.contract.IsAlive env = (.ok (true, c), trA))
    (haddr : c.address = some addr)
    (hsrc : c.source = some src)
    (hcl : c.client = some cl)
    (hdry : (c.invokeTx b.build addr src.AccountId).dryTx = .ok tx)
    (hsim : cl.SimulateTransaction tx = .ok res)
    (hda : decodeAuths env res.Results = .ok auths)
    (hdd : env.decodeSorobanData res.TransactionData = .ok d)
    (hres : res.RestorePreamble.MinResourceFee ≠ 0)
    (hauth : (((c.invokeTx b.build addr src.AccountId).BaseFee
        (res.MinResourceFee + MinBaseFee)).SorobanData d).Authorization auths
        = .ok t2)
    (hRsend : (c.restorePreambleTx src.AccountId d
        (res.RestorePreamble.MinResourceFee + MinBaseFee)).Send =
        (.ok rR, trR))
    (hIsend : t2.Send = (.ok rI, trI)) :
    b.RestoreAndSend env =
      ((.ok rI, c),
       trA ++ ([.simulateCall tx] ++ trR ++
         (cl.waitCompletedTransaction rR.Hash).2.1 ++ trI)) ∧
    (∃ stxR stxI,
      sendCalls (b.RestoreAndSend env).2 =
        [.sendCall stxR, .sendCall stxI] ∧
      stxR.tx.Operations = [.restoreFootprint (some d) src.AccountId] ∧
      stxI.tx.Operations = t2.build.operations) ∧
    t2.build.operations =
      [.invokeHostFunction
        (.invokeContract { ContractAddress := addr,
                           FunctionName := b.build.function,
                           Args := b.build.prams })
        auths (some d) src.AccountId] := by
  have hga : c.GetAddress env = .ok (addr, c) := by
    unfold Contract.GetAddress
    rw [haddr]
  have hfb : (b.build.function == "") = false := by
    simpa using hfn
  rcases hw : cl.waitCompletedTransaction rR.Hash with ⟨w1, trW, w3⟩
  have hmain : b.RestoreAndSend env =
      ((.ok rI, c), trA ++ ([.simulateCall tx] ++ trR ++ trW ++ trI)) := by
    unfold invokeBuilder.RestoreAndSend Contract.invoke Transaction.Simulate
    simp only [hfb, Bool.false_eq_true, if_false, hA, Bool.not_true, hga,
      hsrc, hdry, invokeTx_client, hcl, hsim, hda, hdd, hauth, if_pos hres,
      Bool.not_true, if_false, hRsend, hw, hIsend]
  have hops2 : t2.build.operations =
      [.invokeHostFunction
        (.invokeContract { ContractAddress := addr,
                           FunctionName := b.build.function,
                           Args := b.build.prams })
        auths (some d) src.AccountId] := by
    have hcomp : (((c.invokeTx b.build addr src.AccountId).BaseFee
        (res.MinResourceFee + MinBaseFee)).SorobanData d).Authorization auths
        = .ok { client := c.client,
                build := { source := c.source,
                           operations :=
                             [.invokeHostFunction
                               (.invokeContract
                                 { ContractAddress := addr,
                                   FunctionName := b.build.function,
                                   Args := b.build.prams })
                               auths (some d) src.AccountId],
                           signers := [c.kp],
                           timeBounds := NewTimeout 30,
                           baseFee := res.MinResourceFee + MinBaseFee,
                           incrementSequenceNum := true } } := rfl
    rw [hcomp] at hauth
    simp only [Res.ok.injEq] at hauth
    rw [← hauth]
  obtain ⟨stxR, htrR, hopsR⟩ := send_ok_trace _ _ _ hRsend
  obtain ⟨stxI, htrI, hopsI⟩ := send_ok_trace _ _ _ hIsend
  have hAn := isAlive_no_send env b.contract
  rw [hA] at hAn
  refine ⟨by rw [hmain], ?_, hops2⟩
  refine ⟨stxR, stxI, ?_, ?_, hopsI⟩
  · rw [hmain]
    have hWn := waitLoop_no_send cl rR.Hash 5 0
    have hwn : sendCalls trW = [] := by
      have : (cl.waitCompletedTransaction rR.Hash).2.1 = trW := by
        rw [hw]
      rw [← this]
      exact hWn
    simp only [sendCalls, List.filter_append] at hAn hwn ⊢
    rw [htrR, htrI]
    simp [hAn, hwn, NetCall.isSend]
  · rw [hopsR]
    rfl

/-- C6 witness: the amended behaviour on a concrete stale run - one restore
submission carrying the decoded simulation transactionData, then the invoke
submission, final result the invoke submission's. -/
theorem c6_restoreAndSend_one_restore_witness :
    (b6.RestoreAndSend env0).1 = (.ok { Hash := "H" }, c6c) ∧
    ∃ stxR stxI,
      sendCalls (b6.RestoreAndSend env0).2 =
        [.sendCall stxR, .sendCall stxI] ∧
      stxR.tx.Operations =
        [.restoreFootprint
          (some { Resources := { Footprint := {} }, rest := "TD" }) "G"] := by
  obtain ⟨h1, ⟨stxR, stxI, hs, hR, hI⟩, h3⟩ :=
    c6_restoreAndSend_one_restore env0 b6 c6c cl6 { AccountId := "G" }
      (.contract [3])
      [.getLedgerEntriesCall "KEY", .getLedgerEntriesCall "KEY"] _ res5 []
      { Resources := { Footprint := {} }, rest := "TD" } _ { Hash := "H" } _
      { Hash := "H" } _
      (by decide) rfl rfl rfl rfl rfl rfl rfl rfl (by decide) rfl rfl rfl
  refine ⟨by rw [h1], stxR, stxI, hs, hR⟩

/-- C8: Install fails fast with the per-field required-configuration error
when the client, source account or key pair is absent, before any network
call; but, contrary to the claim, absent code bytes are not checked: with
wasm unset Install proceeds to simulate and submit (two network calls)
instead of returning the Wasm-required error. -/
theorem c8_install_field_validation :
    (c8noClient.Install env0 = (.err ErrorRequiredClient, [])) ∧
    (c8noSource.Install env0 = (.err ErrorRequiredSource, [])) ∧
    (c8noKp.Install env0 = (.err ErrorRequiredKeyPair, [])) ∧
    (c8.wasm = []) ∧
    ((c8.Install env0).1 = .ok { Hash := "H" }) ∧
    ((c8.Install env0).2.length = 2) ∧
    ((c8.Install env0).1 ≠ .err ErrorRequiredWasm) := by
  refine ⟨rfl, rfl, rfl, rfl, rfl, rfl, by decide⟩

end Soroban
